import Mathlib

/-!
Shallow embedding of the ngosaas document-review frontend.

The repository is a React/TypeScript frontend. Pure computations (filters,
guards, token decoding, request construction, error mapping) are translated
into executable Lean definitions; React state and localStorage become explicit
values and maps; JS exceptions become Except; fallible results become Option.
The backend engine (AssignmentPolicy, EvaluationWorkflow) is not part of the
repository sources; where a property depends on it, a definition modelled from
the specification is used and marked as such.
-/

/-- JS falsiness of a string-or-null value: null and the empty string are falsy. -/
def jsFalsy : Option String → Bool
  | none => true
  | some s => s == ""

/-- Evaluation record as declared in ReviewerDashboard.tsx (lines 4-9). -/
structure Evaluation where
  reviewer_email : String
  comment : String
  status : String
  created_at : String
deriving Repr, DecidableEq

/-- Document record as declared in ReviewerDashboard.tsx (lines 11-21).
    assigned_reviewer_id is a single nullable field. -/
structure Document where
  id : Nat
  title : String
  organization : String
  filename : String
  uploaded_by : String
  url : String
  evaluations : List Evaluation
  assigned_reviewer_id : Option Nat
  assigned_reviewer_email : Option String
deriving Repr, DecidableEq

/-- User record as rendered by AdminDashboard.tsx (id, email, role). -/
structure User where
  id : Nat
  email : String
  role : String
deriving Repr, DecidableEq

/-- ReviewerDashboard.tsx lines 148-150: the documents presented for review are
    the fetched documents filtered by assigned_reviewer_id strictly equal to the
    reviewer id decoded from the token. -/
def documentsToReview (currentReviewerId : Option Nat) (documents : List Document) :
    List Document :=
  documents.filter (fun doc => doc.assigned_reviewer_id == currentReviewerId)

/-- localStorage modelled as a map from keys to optionally stored strings. -/
def LocalStorage : Type := String → Option String

/-- localStorage.getItem. -/
def getItem (s : LocalStorage) (k : String) : Option String := s k

/-- localStorage.setItem. -/
def setItem (s : LocalStorage) (k v : String) : LocalStorage :=
  fun k2 => if k2 = k then some v else s k2

/-- Dashboard.tsx line 10: const token = localStorage.getItem("token") or-else "". -/
def dashboardToken (s : LocalStorage) : String := (getItem s "token").getD ""

/-- AdminDashboard.tsx line 12: same ambient read as Dashboard.tsx. -/
def adminDashboardToken (s : LocalStorage) : String := (getItem s "token").getD ""

/-- ReviewerDashboard.tsx line 31: const token = localStorage.getItem("token"). -/
def reviewerDashboardToken (s : LocalStorage) : Option String := getItem s "token"

/-- A concrete session store holding a token, for counterexamples. -/
def storeWithToken : LocalStorage := fun k => if k = "token" then some "tok-abc" else none

/-- A concrete empty session store. -/
def emptyStore : LocalStorage := fun _ => none

/-- The body carried by an api.ts request, per operation. -/
inductive RequestBody where
  | empty
  | registerForm (email password role : String)
  | loginForm (username password : String)
  | uploadForm (title organization filename : String)
  | evaluationBody (comment status : String)
  | assignReviewerBody (reviewer_id : Option Nat)
deriving Repr, DecidableEq

/-- The api.ts endpoint paths; numeric ids kept structured. -/
inductive Endpoint where
  | registerPath
  | loginPath
  | dashboardPath
  | granteeUpload
  | reviewerDocuments
  | evaluate (docId : Nat)
  | adminUsers
  | adminDocuments
  | assignReviewerPath (docId : Nat)
deriving Repr, DecidableEq

/-- An HTTP request as built by api.ts: endpoint, bearer token if any, body. -/
structure ApiRequest where
  endpoint : Endpoint
  authToken : Option String
  body : RequestBody
deriving Repr, DecidableEq

/-- A server outcome: success with payload, or failure carrying the optional
    response.data.detail string (none models a failure with no detail, e.g. a
    network error). -/
inductive ServerResponse (α : Type) where
  | ok (data : α)
  | fail (detail : Option String)
deriving Repr, DecidableEq

/-- The try-catch wrapper every api.ts operation applies to its single request:
    on success resolve with res.data, on failure reject with one Error whose
    message is error.response.data.detail when present, else the fixed fallback. -/
def apiCall {α : Type} (fallback : String) (resp : ServerResponse α) : Except String α :=
  match resp with
  | .ok a => .ok a
  | .fail d => .error (d.getD fallback)

/-- api.ts register: POST /register with email, password, role; no auth header. -/
def registerRequest (email password role : String) : ApiRequest :=
  ⟨.registerPath, none, .registerForm email password role⟩

/-- api.ts register, request plus response handling. -/
def register {α : Type} (email password role : String) (resp : ServerResponse α) :
    ApiRequest × Except String α :=
  (registerRequest email password role, apiCall "Failed to register" resp)

/-- api.ts login: POST /login with urlencoded username (the email) and password. -/
def loginRequest (email password : String) : ApiRequest :=
  ⟨.loginPath, none, .loginForm email password⟩

/-- api.ts login, request plus response handling. -/
def login {α : Type} (email password : String) (resp : ServerResponse α) :
    ApiRequest × Except String α :=
  (loginRequest email password, apiCall "Login failed" resp)

/-- api.ts fetchDashboard: GET /dashboard with bearer token. -/
def fetchDashboardRequest (token : String) : ApiRequest :=
  ⟨.dashboardPath, some token, .empty⟩

/-- api.ts fetchDashboard, request plus response handling. -/
def fetchDashboard {α : Type} (token : String) (resp : ServerResponse α) :
    ApiRequest × Except String α :=
  (fetchDashboardRequest token, apiCall "Failed to load dashboard" resp)

/-- api.ts uploadDocument: POST /grantee/upload with form data and bearer token. -/
def uploadDocumentRequest (title organization filename token : String) : ApiRequest :=
  ⟨.granteeUpload, some token, .uploadForm title organization filename⟩

/-- api.ts uploadDocument, request plus response handling. -/
def uploadDocument {α : Type} (title organization filename token : String)
    (resp : ServerResponse α) : ApiRequest × Except String α :=
  (uploadDocumentRequest title organization filename token, apiCall "Upload failed" resp)

/-- api.ts fetchDocuments: GET /reviewer/documents with bearer token. -/
def fetchDocumentsRequest (token : String) : ApiRequest :=
  ⟨.reviewerDocuments, some token, .empty⟩

/-- api.ts fetchDocuments, request plus response handling. -/
def fetchDocuments {α : Type} (token : String) (resp : ServerResponse α) :
    ApiRequest × Except String α :=
  (fetchDocumentsRequest token, apiCall "Failed to fetch reviewer documents" resp)

/-- api.ts submitEvaluation: POST /reviewer/documents/:docId/evaluate with
    comment and status, bearer token. -/
def submitEvaluationRequest (token : String) (docId : Nat) (comment status : String) :
    ApiRequest :=
  ⟨.evaluate docId, some token, .evaluationBody comment status⟩

/-- api.ts submitEvaluation, request plus response handling. -/
def submitEvaluation {α : Type} (token : String) (docId : Nat) (comment status : String)
    (resp : ServerResponse α) : ApiRequest × Except String α :=
  (submitEvaluationRequest token docId comment status,
    apiCall "Failed to submit evaluation" resp)

/-- api.ts fetchAllUsers: GET /admin/users with bearer token. -/
def fetchAllUsersRequest (token : String) : ApiRequest :=
  ⟨.adminUsers, some token, .empty⟩

/-- api.ts fetchAllUsers, request plus response handling. -/
def fetchAllUsers {α : Type} (token : String) (resp : ServerResponse α) :
    ApiRequest × Except String α :=
  (fetchAllUsersRequest token, apiCall "Failed to fetch all users (Admin)" resp)

/-- api.ts fetchAllDocuments: GET /admin/documents with bearer token. -/
def fetchAllDocumentsRequest (token : String) : ApiRequest :=
  ⟨.adminDocuments, some token, .empty⟩

/-- api.ts fetchAllDocuments, request plus response handling. -/
def fetchAllDocuments {α : Type} (token : String) (resp : ServerResponse α) :
    ApiRequest × Except String α :=
  (fetchAllDocumentsRequest token, apiCall "Failed to fetch all documents (Admin)" resp)

/-- api.ts assignReviewerToDocument: POST /admin/documents/:docId/assign-reviewer
    with reviewer_id, bearer token. reviewer_id is Option Nat because the caller
    passes parseInt of the selection, which is NaN (modelled none) when the
    selection is not numeric. -/
def assignReviewerRequest (token : String) (docId : Nat) (reviewerId : Option Nat) :
    ApiRequest :=
  ⟨.assignReviewerPath docId, some token, .assignReviewerBody reviewerId⟩

/-- api.ts assignReviewerToDocument, request plus response handling. -/
def assignReviewerToDocument {α : Type} (token : String) (docId : Nat)
    (reviewerId : Option Nat) (resp : ServerResponse α) : ApiRequest × Except String α :=
  (assignReviewerRequest token docId reviewerId, apiCall "Failed to assign reviewer" resp)

/-- C1: for a reviewer identity whose userId decoded from the token is uid, the
    set of documents presented for review contains exactly the fetched documents
    whose assigned_reviewer_id equals uid - in particular never a superset of the
    visible set for that reviewer. -/
theorem documentsToReview_exactly_assigned (uid : Nat) (docs : List Document)
    (d : Document) :
    d ∈ documentsToReview (some uid) docs ↔ d ∈ docs ∧ d.assigned_reviewer_id = some uid := by
  simp [documentsToReview, List.mem_filter]

/-- The status values of the spec enum (section 4.3): approved, needs_revision,
    rejected. -/
def specStatuses : List String := ["approved", "needs_revision", "rejected"]

/-- The option values offered by the status select in ReviewerDashboard.tsx
    (lines 230-233): the empty placeholder, approved, needs revision (with a
    space), rejected. -/
def reviewerStatusOptions : List String := ["", "approved", "needs revision", "rejected"]

/-- Outcome of a ReviewerDashboard submit click. -/
inductive SubmitOutcome where
  | aborted
  | blocked (msg : String)
  | sent (req : ApiRequest)
deriving Repr, DecidableEq

/-- ReviewerDashboard.tsx handleSubmit (lines 105-127): return when the token is
    missing; block with a message when the status or the comment for the
    document is falsy (absent or empty); otherwise send the evaluation. -/
def handleSubmit (token : Option String) (statuses comments : Nat → Option String)
    (docId : Nat) : SubmitOutcome :=
  if jsFalsy token then .aborted
  else if jsFalsy (statuses docId) then
    .blocked "Please select a status for the evaluation."
  else if jsFalsy (comments docId) then
    .blocked "Please add a comment for the evaluation."
  else
    .sent (submitEvaluationRequest (token.getD "") docId
      ((comments docId).getD "") ((statuses docId).getD ""))

/-- ReviewerDashboard.tsx loadDocuments (lines 81-89): the evaluation used to
    prefill the form for one document is found by JS Array.find over the
    document evaluations, comparing reviewer_email strictly to the email decoded
    from the token (a string or null). -/
def myEvalFor (currentReviewerEmail : Option String) (doc : Document) :
    Option Evaluation :=
  doc.evaluations.find? (fun ev => some ev.reviewer_email == currentReviewerEmail)

/-- Prefilled comment for one document (none when no evaluation matches). -/
def initialCommentFor (currentReviewerEmail : Option String) (doc : Document) :
    Option String :=
  (myEvalFor currentReviewerEmail doc).map (fun ev => ev.comment)

/-- Prefilled status for one document (none when no evaluation matches). -/
def initialStatusFor (currentReviewerEmail : Option String) (doc : Document) :
    Option String :=
  (myEvalFor currentReviewerEmail doc).map (fun ev => ev.status)

/-- Helper: a successful find? splits the list at the first hit. -/
theorem find?_split {α : Type} (p : α → Bool) (l : List α) (a : α)
    (h : l.find? p = some a) :
    p a = true ∧ ∃ pre post, l = pre ++ a :: post ∧ ∀ x ∈ pre, p x = false := by
  induction l with
  | nil => simp at h
  | cons b bs ih =>
    cases hb : p b with
    | true =>
      rw [List.find?_cons_of_pos _ hb] at h
      cases h
      exact ⟨hb, [], bs, rfl, by simp⟩
    | false =>
      rw [List.find?_cons_of_neg _ (by simp [hb])] at h
      obtain ⟨hpa, pre, post, heq, hpre⟩ := ih h
      refine ⟨hpa, b :: pre, post, by rw [heq, List.cons_append], ?_⟩
      intro x hx
      rcases List.mem_cons.mp hx with h1 | h2
      · subst h1; exact hb
      · exact hpre x h2

/-- Helper: find? returns the head of the first matching suffix. -/
theorem find?_append_first {α : Type} (p : α → Bool) (pre : List α) (a : α)
    (post : List α) (hpre : ∀ x ∈ pre, p x = false) (ha : p a = true) :
    (pre ++ a :: post).find? p = some a := by
  induction pre with
  | nil => simpa using List.find?_cons_of_pos post ha
  | cons b bs ih =>
    have hb : p b = false := hpre b (by simp)
    rw [List.cons_append, List.find?_cons_of_neg _ (by simp [hb])]
    exact ih (fun x hx => hpre x (by simp [hx]))

/-- C2 counterexample: the dashboard components obtain the identity token from
    the global mutable session store; varying only the ambient store changes the
    identity each component acts with, so the claim that no component reads
    ambient session data is false. -/
theorem dashboard_token_reads_global_store :
    dashboardToken storeWithToken ≠ dashboardToken emptyStore
    ∧ adminDashboardToken storeWithToken ≠ adminDashboardToken emptyStore
    ∧ reviewerDashboardToken storeWithToken ≠ reviewerDashboardToken emptyStore := by
  refine ⟨?_, ?_, ?_⟩ <;> decide

/-- C2 amended: every api.ts operation takes the identity token as an explicit
    parameter and its request carries exactly that token; the dashboard
    components however obtain the token they pass along from the ambient
    localStorage store, whose contents alone change the identity used. -/
theorem api_explicit_identity_components_ambient (token title organization filename
    comment status : String) (docId : Nat) (reviewerId : Option Nat) :
    (fetchDashboardRequest token).authToken = some token
    ∧ (uploadDocumentRequest title organization filename token).authToken = some token
    ∧ (fetchDocumentsRequest token).authToken = some token
    ∧ (submitEvaluationRequest token docId comment status).authToken = some token
    ∧ (fetchAllUsersRequest token).authToken = some token
    ∧ (fetchAllDocumentsRequest token).authToken = some token
    ∧ (assignReviewerRequest token docId reviewerId).authToken = some token
    ∧ (∃ s1 s2 : LocalStorage, dashboardToken s1 ≠ dashboardToken s2)
    ∧ (∃ s1 s2 : LocalStorage, reviewerDashboardToken s1 ≠ reviewerDashboardToken s2) := by
  refine ⟨rfl, rfl, rfl, rfl, rfl, rfl, rfl,
    ⟨storeWithToken, emptyStore, by decide⟩,
    ⟨storeWithToken, emptyStore, by decide⟩⟩

/-- A statuses map as left after the reviewer picked the offered option Needs
    Revision, whose select value is the string with a space. -/
def selectedStatuses : Nat → Option String := fun _ => some "needs revision"

/-- A comments map holding a non-empty comment. -/
def selectedComments : Nat → Option String := fun _ => some "ok"

/-- C3 counterexample: choosing the offered option Needs Revision with a
    non-empty comment sends the evaluation with the literal status needs
    revision, which is not a member of the spec enum, so a submission violating
    the membership condition is sent rather than failing. -/
theorem submit_sends_status_outside_spec_enum :
    handleSubmit (some "tok") selectedStatuses selectedComments 7
      = .sent (submitEvaluationRequest "tok" 7 "ok" "needs revision")
    ∧ specStatuses.contains "needs revision" = false
    ∧ handleSubmit (some "tok") (fun _ => some "bogus") selectedComments 7
      = .sent (submitEvaluationRequest "tok" 7 "ok" "bogus")
    ∧ specStatuses.contains "bogus" = false := by
  refine ⟨?_, ?_, ?_, ?_⟩ <;> decide

/-- C3 amended: a submission reaches submitEvaluation only when both the status
    and the comment for the document are non-empty - otherwise handleSubmit
    blocks with a message and nothing is sent - but the guard enforces only
    non-emptiness, not membership in the spec status enum, and the sent status
    is the stored string verbatim. -/
theorem handleSubmit_sends_iff_nonempty (token : Option String)
    (statuses comments : Nat → Option String) (docId : Nat) :
    (jsFalsy token = true → handleSubmit token statuses comments docId = .aborted)
    ∧ (jsFalsy token = false → jsFalsy (statuses docId) = true →
        handleSubmit token statuses comments docId
          = .blocked "Please select a status for the evaluation.")
    ∧ (jsFalsy token = false → jsFalsy (statuses docId) = false →
        jsFalsy (comments docId) = true →
        handleSubmit token statuses comments docId
          = .blocked "Please add a comment for the evaluation.")
    ∧ (∀ req, handleSubmit token statuses comments docId = .sent req ↔
        jsFalsy token = false ∧ jsFalsy (statuses docId) = false
          ∧ jsFalsy (comments docId) = false
          ∧ req = submitEvaluationRequest (token.getD "") docId
              ((comments docId).getD "") ((statuses docId).getD "")) := by
  unfold handleSubmit
  refine ⟨?_, ?_, ?_, ?_⟩
  · intro h; simp [h]
  · intro h1 h2; simp [h1, h2]
  · intro h1 h2 h3; simp [h1, h2, h3]
  · intro req
    constructor
    · intro h
      by_cases h1 : jsFalsy token = true
      · simp [h1] at h
      · rw [Bool.not_eq_true] at h1
        by_cases h2 : jsFalsy (statuses docId) = true
        · simp [h1, h2] at h
        · rw [Bool.not_eq_true] at h2
          by_cases h3 : jsFalsy (comments docId) = true
          · simp [h1, h2, h3] at h
          · rw [Bool.not_eq_true] at h3
            simp [h1, h2, h3] at h
            exact ⟨h1, h2, h3, h.symm⟩
    · rintro ⟨h1, h2, h3, rfl⟩
      simp [h1, h2, h3]

/-- Concrete state for the amended C3 theorem witness. -/
theorem handleSubmit_sends_iff_nonempty_witness :
    handleSubmit (some "tok") (fun _ => none) selectedComments 3
      = .blocked "Please select a status for the evaluation."
    ∧ handleSubmit (some "tok") selectedStatuses (fun _ => some "") 3
      = .blocked "Please add a comment for the evaluation."
    ∧ handleSubmit (some "tok") selectedStatuses selectedComments 3
      = .sent (submitEvaluationRequest "tok" 3 "ok" "needs revision") := by
  refine ⟨?_, ?_, ?_⟩
  · exact (handleSubmit_sends_iff_nonempty (some "tok") (fun _ => none)
      selectedComments 3).2.1 (by decide) (by decide)
  · exact (handleSubmit_sends_iff_nonempty (some "tok") selectedStatuses
      (fun _ => some "") 3).2.2.1 (by decide) (by decide) (by decide)
  · exact ((handleSubmit_sends_iff_nonempty (some "tok") selectedStatuses
      selectedComments 3).2.2.2 _).mpr ⟨by decide, by decide, by decide, by decide⟩

/-- C10: the prefilled current evaluation for a fetched document is exactly the
    first element of the document evaluations whose reviewer_email equals the
    logged-in reviewer email (JS Array.find), not the most recent one; when no
    element matches, no prefill entry is produced. -/
theorem prefill_first_matching_evaluation (email : String) (doc : Document) :
    (∀ ev, myEvalFor (some email) doc = some ev →
      ev.reviewer_email = email ∧
      ∃ pre post, doc.evaluations = pre ++ ev :: post ∧
        ∀ e2 ∈ pre, e2.reviewer_email ≠ email)
    ∧ (∀ pre ev post, doc.evaluations = pre ++ ev :: post →
        ev.reviewer_email = email → (∀ e2 ∈ pre, e2.reviewer_email ≠ email) →
        myEvalFor (some email) doc = some ev
        ∧ initialCommentFor (some email) doc = some ev.comment
        ∧ initialStatusFor (some email) doc = some ev.status)
    ∧ (myEvalFor (some email) doc = none →
        initialCommentFor (some email) doc = none
        ∧ initialStatusFor (some email) doc = none
        ∧ ∀ e2 ∈ doc.evaluations, e2.reviewer_email ≠ email) := by
  refine ⟨?_, ?_, ?_⟩
  · intro ev h
    obtain ⟨hp, pre, post, heq, hpre⟩ := find?_split _ _ _ h
    refine ⟨by simpa using hp, pre, post, heq, ?_⟩
    intro e2 he2
    have := hpre e2 he2
    simpa using this
  · intro pre ev post heq hmatch hpre
    have hfind : myEvalFor (some email) doc = some ev := by
      unfold myEvalFor
      rw [heq]
      exact find?_append_first _ pre ev post
        (fun x hx => by simpa using hpre x hx) (by simpa using hmatch)
    exact ⟨hfind, by simp [initialCommentFor, hfind], by simp [initialStatusFor, hfind]⟩
  · intro h
    refine ⟨by simp [initialCommentFor, h], by simp [initialStatusFor, h], ?_⟩
    intro e2 he2
    have := List.find?_eq_none.mp h e2 he2
    simpa using this

/-- An older evaluation by the sample reviewer, listed first. -/
def sampleEvalOld : Evaluation :=
  ⟨"rev@x.org", "first comment", "needs revision", "2024-01-01"⟩

/-- A newer evaluation by the same reviewer, listed second. -/
def sampleEvalNew : Evaluation :=
  ⟨"rev@x.org", "second comment", "approved", "2024-02-01"⟩

/-- A fetched document holding both evaluations, older first. -/
def sampleDoc : Document :=
  ⟨1, "t", "o", "f.pdf", "g@x.org", "u", [sampleEvalOld, sampleEvalNew],
    some 5, some "rev@x.org"⟩

/-- C10 witness: on a document with two evaluations by the reviewer, the prefill
    is the first listed one, not the later approved one. -/
theorem prefill_first_matching_evaluation_witness :
    myEvalFor (some "rev@x.org") sampleDoc = some sampleEvalOld
    ∧ initialCommentFor (some "rev@x.org") sampleDoc = some "first comment"
    ∧ initialStatusFor (some "rev@x.org") sampleDoc = some "needs revision" := by
  have h := (prefill_first_matching_evaluation "rev@x.org" sampleDoc).2.1
    [] sampleEvalOld [sampleEvalNew] rfl rfl (by simp)
  exact ⟨h.1, h.2.1, h.2.2⟩

/-- Decimal digit test, as parseInt applies to the characters of a selection. -/
def isDigitChar (c : Char) : Bool := 48 ≤ c.toNat && c.toNat ≤ 57

/-- Numeric value of a digit character. -/
def digitVal (c : Char) : Nat := c.toNat - 48

/-- Accumulator pass of parseInt over the leading digits; stops at the first
    non-digit. -/
def parseDigitsAux : List Char → Nat → Nat
  | [], acc => acc
  | c :: cs, acc =>
    if isDigitChar c then parseDigitsAux cs (acc * 10 + digitVal c) else acc

/-- JS parseInt restricted to the unsigned base-10 fragment the admin select
    produces: none (NaN) when the first character is not a digit, otherwise the
    value of the longest digit prefix. -/
def jsParseInt (s : String) : Option Nat :=
  match s.data with
  | [] => none
  | c :: _ => if isDigitChar c then some (parseDigitsAux s.data 0) else none

/-- Decimal digits of n, most significant first, as React renders a numeric id. -/
def decDigits (n : Nat) : List Char :=
  if _h : n < 10 then [Char.ofNat (48 + n)]
  else decDigits (n / 10) ++ [Char.ofNat (48 + n % 10)]
termination_by n
decreasing_by exact Nat.div_lt_self (by omega) (by omega)

/-- Decimal rendering of a number, as the value attribute of a select option. -/
def decRepr (n : Nat) : String := ⟨decDigits n⟩

/-- Helper: a digit character round-trips through Char.ofNat. -/
theorem isDigit_digit_char (d : Nat) (hd : d < 10) :
    isDigitChar (Char.ofNat (48 + d)) = true := by
  interval_cases d <;> decide

/-- Helper: the numeric value of a rendered digit character. -/
theorem digitVal_digit_char (d : Nat) (hd : d < 10) :
    digitVal (Char.ofNat (48 + d)) = d := by
  interval_cases d <;> decide

/-- Helper: a decimal rendering is never the empty list. -/
theorem decDigits_ne_nil (n : Nat) : decDigits n ≠ [] := by
  rw [decDigits]
  split
  · simp
  · simp

/-- Helper: every character of a decimal rendering is a digit. -/
theorem decDigits_all_digits (n : Nat) : ∀ c ∈ decDigits n, isDigitChar c = true := by
  induction n using Nat.strong_induction_on with
  | _ n ih =>
    rw [decDigits]
    split
    · rename_i h
      intro c hc
      simp only [List.mem_singleton] at hc
      subst hc
      exact isDigit_digit_char n h
    · rename_i h
      intro c hc
      rcases List.mem_append.mp hc with h1 | h2
      · exact ih (n / 10) (Nat.div_lt_self (by omega) (by omega)) c h1
      · simp only [List.mem_singleton] at h2
        subst h2
        exact isDigit_digit_char (n % 10) (Nat.mod_lt _ (by omega))

/-- Helper: parseDigitsAux consumes an all-digit block before the rest. -/
theorem parseDigitsAux_append (l1 l2 : List Char) (acc : Nat)
    (h : ∀ c ∈ l1, isDigitChar c = true) :
    parseDigitsAux (l1 ++ l2) acc = parseDigitsAux l2 (parseDigitsAux l1 acc) := by
  induction l1 generalizing acc with
  | nil => simp [parseDigitsAux]
  | cons c cs ih =>
    have hc : isDigitChar c = true := h c (by simp)
    simp only [List.cons_append, parseDigitsAux, hc, if_true]
    exact ih _ (fun x hx => h x (by simp [hx]))

/-- Helper: parsing the decimal rendering of n recovers n. -/
theorem parseDigitsAux_decDigits (n : Nat) :
    ∀ acc, parseDigitsAux (decDigits n) acc = acc * 10 ^ (decDigits n).length + n := by
  induction n using Nat.strong_induction_on with
  | _ n ih =>
    intro acc
    rw [decDigits]
    split
    · rename_i h
      simp [parseDigitsAux, isDigit_digit_char n h, digitVal_digit_char n h]
    · rename_i h
      rw [parseDigitsAux_append _ _ _ (decDigits_all_digits _)]
      rw [ih (n / 10) (Nat.div_lt_self (by omega) (by omega))]
      have h10 : n % 10 < 10 := Nat.mod_lt _ (by omega)
      simp only [parseDigitsAux, isDigit_digit_char (n % 10) h10,
        digitVal_digit_char (n % 10) h10, if_true, List.length_append,
        List.length_singleton, pow_succ]
      have hmod := Nat.div_add_mod n 10
      rw [← mul_assoc]
      generalize acc * 10 ^ (decDigits (n / 10)).length = M at *
      omega

/-- Helper: jsParseInt inverts decRepr. -/
theorem jsParseInt_decRepr (n : Nat) : jsParseInt (decRepr n) = some n := by
  have hall := decDigits_all_digits n
  have hval := parseDigitsAux_decDigits n 0
  unfold jsParseInt decRepr
  cases hd : decDigits n with
  | nil => exact absurd hd (decDigits_ne_nil n)
  | cons c cs =>
    have hc : isDigitChar c = true := hall c (by rw [hd]; simp)
    simp only [hd, hc, if_true]
    rw [← hd, hval]
    simp

/-- Helper: a decimal rendering is a non-empty string. -/
theorem decRepr_ne_empty (n : Nat) : decRepr n ≠ "" := by
  intro h
  have : (decRepr n).data = ("" : String).data := by rw [h]
  simp only [decRepr] at this
  exact decDigits_ne_nil n this

/-- AdminDashboard.tsx line 57: the reviewer dropdown is fed by filtering the
    fetched users on role equal to reviewer. -/
def reviewers (users : List User) : List User :=
  users.filter (fun user => user.role == "reviewer")

/-- The option values of the Assign Reviewer select (AdminDashboard.tsx lines
    154-165): the empty placeholder plus one option per reviewer, whose value is
    the reviewer id rendered in decimal. -/
def reviewerOptionValues (users : List User) : List String :=
  "" :: (reviewers users).map (fun reviewer => decRepr reviewer.id)

/-- Outcome of a click on Assign Reviewer. -/
inductive AssignOutcome where
  | blocked (msg : String)
  | sent (req : ApiRequest)
deriving Repr, DecidableEq

/-- AdminDashboard.tsx handleAssignReviewer (lines 39-55): block with a message
    when no reviewer is selected, else parseInt the selection and send the
    assignment request. -/
def handleAssignReviewer (token selectedReviewer : String) (docId : Nat) :
    AssignOutcome :=
  if selectedReviewer == "" then .blocked "Please select a reviewer to assign."
  else .sent (assignReviewerRequest token docId (jsParseInt selectedReviewer))

/-- C4: the dropdown offers exactly the fetched users whose role is reviewer; no
    assignment request goes out while nothing is selected; and any selection of
    an offered option sends a request whose reviewerId is the id of a user with
    role reviewer. -/
theorem assign_targets_are_reviewers (users : List User) (token sel : String)
    (docId : Nat) :
    (∀ u, u ∈ reviewers users ↔ u ∈ users ∧ u.role = "reviewer")
    ∧ handleAssignReviewer token "" docId
        = .blocked "Please select a reviewer to assign."
    ∧ (sel ∈ reviewerOptionValues users → sel ≠ "" →
        ∃ u, u ∈ users ∧ u.role = "reviewer" ∧
          handleAssignReviewer token sel docId
            = .sent (assignReviewerRequest token docId (some u.id))) := by
  refine ⟨?_, ?_, ?_⟩
  · intro u
    simp [reviewers, List.mem_filter]
  · simp [handleAssignReviewer]
  · intro hmem hne
    rcases List.mem_cons.mp hmem with h0 | h1
    · exact absurd h0 hne
    · obtain ⟨u, hu, hrepr⟩ := List.mem_map.mp h1
      have hurole : u.role = "reviewer" := by
        have := (List.mem_filter.mp hu).2
        simpa using this
      refine ⟨u, (List.mem_filter.mp hu).1, hurole, ?_⟩
      unfold handleAssignReviewer
      rw [if_neg (by simp [hne])]
      rw [← hrepr, jsParseInt_decRepr]

/-- A concrete fetched user list: one grantee, one reviewer, one admin. -/
def sampleUsers : List User :=
  [⟨1, "g@x.org", "grantee"⟩, ⟨2, "r@x.org", "reviewer"⟩, ⟨3, "a@x.org", "admin"⟩]

/-- C4 witness: with the sample users, selecting option value 2 sends the
    assignment for the reviewer with id 2, and the empty selection blocks. -/
theorem assign_targets_are_reviewers_witness :
    (⟨2, "r@x.org", "reviewer"⟩ : User) ∈ reviewers sampleUsers
    ∧ handleAssignReviewer "tok" "" 9
        = .blocked "Please select a reviewer to assign."
    ∧ ∃ u, u ∈ sampleUsers ∧ u.role = "reviewer" ∧
        handleAssignReviewer "tok" "2" 9
          = .sent (assignReviewerRequest "tok" 9 (some u.id)) := by
  have h := assign_targets_are_reviewers sampleUsers "tok" "2" 9
  refine ⟨?_, h.2.1, ?_⟩
  · exact (h.1 ⟨2, "r@x.org", "reviewer"⟩).mpr ⟨by decide, rfl⟩
  · refine h.2.2 ?_ (by decide)
    have h2 : decRepr 2 = "2" := by
      rw [decRepr, decDigits]
      decide
    simp [reviewerOptionValues, reviewers, sampleUsers, h2]

/-- C8: for each of the nine api.ts operations, a failed response makes the
    operation reject with exactly one error whose message is the server detail
    string when present and the fixed per-operation fallback otherwise, and the
    operation never resolves with data on failure; each operation performs a
    single request with no retry, reflected by its result being a function of
    one response. -/
theorem api_ops_reject_once_on_failure {α : Type} (detail : Option String)
    (email password role title organization filename comment status token : String)
    (docId : Nat) (reviewerId : Option Nat) :
    ((register email password role (.fail detail : ServerResponse α)).2
        = .error (detail.getD "Failed to register")
      ∧ (register email password role (.fail detail : ServerResponse α)).2.isOk = false)
    ∧ ((login email password (.fail detail : ServerResponse α)).2
        = .error (detail.getD "Login failed")
      ∧ (login email password (.fail detail : ServerResponse α)).2.isOk = false)
    ∧ ((fetchDashboard token (.fail detail : ServerResponse α)).2
        = .error (detail.getD "Failed to load dashboard")
      ∧ (fetchDashboard token (.fail detail : ServerResponse α)).2.isOk = false)
    ∧ ((uploadDocument title organization filename token
          (.fail detail : ServerResponse α)).2
        = .error (detail.getD "Upload failed")
      ∧ (uploadDocument title organization filename token
          (.fail detail : ServerResponse α)).2.isOk = false)
    ∧ ((fetchDocuments token (.fail detail : ServerResponse α)).2
        = .error (detail.getD "Failed to fetch reviewer documents")
      ∧ (fetchDocuments token (.fail detail : ServerResponse α)).2.isOk = false)
    ∧ ((submitEvaluation token docId comment status (.fail detail : ServerResponse α)).2
        = .error (detail.getD "Failed to submit evaluation")
      ∧ (submitEvaluation token docId comment status
          (.fail detail : ServerResponse α)).2.isOk = false)
    ∧ ((fetchAllUsers token (.fail detail : ServerResponse α)).2
        = .error (detail.getD "Failed to fetch all users (Admin)")
      ∧ (fetchAllUsers token (.fail detail : ServerResponse α)).2.isOk = false)
    ∧ ((fetchAllDocuments token (.fail detail : ServerResponse α)).2
        = .error (detail.getD "Failed to fetch all documents (Admin)")
      ∧ (fetchAllDocuments token (.fail detail : ServerResponse α)).2.isOk = false)
    ∧ ((assignReviewerToDocument token docId reviewerId
          (.fail detail : ServerResponse α)).2
        = .error (detail.getD "Failed to assign reviewer")
      ∧ (assignReviewerToDocument token docId reviewerId
          (.fail detail : ServerResponse α)).2.isOk = false) := by
  refine ⟨⟨rfl, rfl⟩, ⟨rfl, rfl⟩, ⟨rfl, rfl⟩, ⟨rfl, rfl⟩, ⟨rfl, rfl⟩, ⟨rfl, rfl⟩,
    ⟨rfl, rfl⟩, ⟨rfl, rfl⟩, ⟨rfl, rfl⟩⟩

/-- Login response body as consumed by Login.tsx. -/
structure LoginData where
  access_token : String
deriving Repr, DecidableEq

/-- Dashboard response body as consumed by Login.tsx. -/
structure DashboardData where
  message : String
  role : String
deriving Repr, DecidableEq

/-- Navigation effect of the login handler. -/
inductive Nav where
  | stay
  | toDashboard
deriving Repr, DecidableEq

/-- Login.tsx handleLogin as a state transformer over localStorage: on a login
    failure the catch branch only shows an error, writing nothing; on success
    the token is stored, then the dashboard is fetched to learn the role, which
    is stored before navigating. loginRes is the outcome of login(email,
    password); dashRes maps the issued token to the outcome of fetchDashboard. -/
def handleLogin (loginRes : Except (Option String) LoginData)
    (dashRes : String → Except (Option String) DashboardData)
    (store : LocalStorage) : LocalStorage × Nav :=
  match loginRes with
  | .error _ => (store, .stay)
  | .ok res =>
    let store1 := setItem store "token" res.access_token
    match dashRes res.access_token with
    | .error _ => (store1, .stay)
    | .ok dash => (setItem store1 "role" dash.role, .toDashboard)

/-- What the dashboard route renders. -/
inductive Page where
  | navigateLogin
  | reviewerDashboardPage
  | generalDashboardPage
deriving Repr, DecidableEq

/-- App.tsx renderDashboard (unnamed part 000, lines 35-40): redirect to login
    unless both a token and a role are present, route reviewers to the reviewer
    dashboard, everyone else to the general dashboard. -/
def renderDashboard (token role : Option String) : Page :=
  if jsFalsy token then .navigateLogin
  else if jsFalsy role then .navigateLogin
  else if role == some "reviewer" then .reviewerDashboardPage
  else .generalDashboardPage

/-- C7: a failed login writes neither token nor role - the store is unchanged
    and there is no navigation - and whenever no token is stored the dashboard
    route renders the redirect to login, so no document or evaluation view is
    reachable without a credential. -/
theorem failed_login_writes_nothing (err : Option String)
    (dashRes : String → Except (Option String) DashboardData)
    (store : LocalStorage) :
    (handleLogin (.error err) dashRes store).1 = store
    ∧ (handleLogin (.error err) dashRes store).2 = Nav.stay
    ∧ (getItem store "token" = none →
        renderDashboard (getItem ((handleLogin (.error err) dashRes store).1) "token")
          (getItem ((handleLogin (.error err) dashRes store).1) "role")
          = .navigateLogin) := by
  refine ⟨rfl, rfl, ?_⟩
  intro h
  show renderDashboard (getItem store "token") (getItem store "role") = .navigateLogin
  rw [renderDashboard, h]
  rfl

/-- C7 witness: an unregistered email rejected by the server leaves the empty
    store empty and the dashboard route redirecting to login. -/
theorem failed_login_writes_nothing_witness :
    (handleLogin (.error (some "Invalid credentials"))
        (fun _ => .error none) emptyStore).1 = emptyStore
    ∧ renderDashboard
        (getItem ((handleLogin (.error (some "Invalid credentials"))
          (fun _ => .error none) emptyStore).1) "token")
        (getItem ((handleLogin (.error (some "Invalid credentials"))
          (fun _ => .error none) emptyStore).1) "role")
        = .navigateLogin := by
  have h := failed_login_writes_nothing (some "Invalid credentials")
    (fun _ => .error none) emptyStore
  exact ⟨h.1, h.2.2 rfl⟩

/-- Split a character list at every dot, as JS String.split of a dot does. -/
def splitDots : List Char → List (List Char)
  | [] => [[]]
  | c :: cs =>
    let r := splitDots cs
    if c = '.' then [] :: r
    else
      match r with
      | [] => [[c]]
      | h :: t => (c :: h) :: t

/-- token.split of a dot. -/
def jsSplitDot (s : String) : List String := (splitDots s.data).map (fun l => ⟨l⟩)

/-- The base64url to base64 character replacement of getEmailFromToken. -/
def b64urlToB64 (s : String) : String :=
  ⟨s.data.map (fun c => if c = '-' then '+' else if c = '_' then '/' else c)⟩

/-- The JWT payload fields the dashboard reads: sub (the email) and id. Either
    may be absent from the parsed JSON. -/
structure JwtPayload where
  sub : Option String
  id : Option Nat
deriving Repr, DecidableEq

/-- JS or-null coercion applied to payload.id: a missing or zero (falsy) id
    becomes null. -/
def jsOrNull : Option Nat → Option Nat
  | some k => if k = 0 then none else some k
  | none => none

/-- The body of getEmailFromToken before its try-catch
    (ReviewerDashboard.tsx lines 36-45), with the JS built-ins atob, the
    percent-decode dance, and JSON.parse passed in as fallible primitives; a
    missing second segment makes the replace call throw. -/
def emailPipeline (atobFn utf8Fn : String → Except Unit String)
    (parseFn : String → Except Unit JwtPayload) (t : String) :
    Except Unit (Option String) :=
  match (jsSplitDot t)[1]? with
  | none => .error ()
  | some seg =>
    match atobFn (b64urlToB64 seg) with
    | .error e => .error e
    | .ok bin =>
      match utf8Fn bin with
      | .error e => .error e
      | .ok payloadStr =>
        match parseFn payloadStr with
        | .error e => .error e
        | .ok payload => .ok payload.sub

/-- ReviewerDashboard.tsx getEmailFromToken (lines 34-49): null for a falsy
    token, the decoded sub on success, null when any step throws. -/
def getEmailFromToken (atobFn utf8Fn : String → Except Unit String)
    (parseFn : String → Except Unit JwtPayload) (token : Option String) :
    Option String :=
  if jsFalsy token then none
  else
    match emailPipeline atobFn utf8Fn parseFn (token.getD "") with
    | .ok r => r
    | .error _ => none

/-- The body of getCurrentReviewerId before its try-catch
    (ReviewerDashboard.tsx lines 54-56): no base64url fix and no percent
    dance here, payload.id or-null. -/
def idPipeline (atobFn : String → Except Unit String)
    (parseFn : String → Except Unit JwtPayload) (t : String) :
    Except Unit (Option Nat) :=
  match (jsSplitDot t)[1]? with
  | none => .error ()
  | some seg =>
    match atobFn seg with
    | .error e => .error e
    | .ok bin =>
      match parseFn bin with
      | .error e => .error e
      | .ok payload => .ok (jsOrNull payload.id)

/-- ReviewerDashboard.tsx getCurrentReviewerId (lines 52-61): null for a falsy
    token, payload.id or-null on success, null when any step throws. -/
def getCurrentReviewerId (atobFn : String → Except Unit String)
    (parseFn : String → Except Unit JwtPayload) (token : Option String) :
    Option Nat :=
  if jsFalsy token then none
  else
    match idPipeline atobFn parseFn (token.getD "") with
    | .ok r => r
    | .error _ => none

/-- Helper: a successful id pipeline always returns an or-null image. -/
theorem idPipeline_ok_shape (atobFn : String → Except Unit String)
    (parseFn : String → Except Unit JwtPayload) (t : String) (r : Option Nat)
    (h : idPipeline atobFn parseFn t = .ok r) : ∃ p, r = jsOrNull p := by
  unfold idPipeline at h
  split at h
  · cases h
  · split at h
    · cases h
    · split at h
      · cases h
      · cases h
        exact ⟨_, rfl⟩

/-- Helper: or-null never yields the falsy zero. -/
theorem jsOrNull_ne_some_zero (p : Option Nat) (n : Nat)
    (h : jsOrNull p = some n) : n ≠ 0 := by
  cases p with
  | none => cases h
  | some k =>
    have h2 : (if k = 0 then none else some k) = some n := h
    by_cases hk : k = 0
    · rw [if_pos hk] at h2; cases h2
    · rw [if_neg hk] at h2
      cases h2
      exact hk

/-- C9: for every input token - null included - and every behavior of the JS
    built-ins, both decoding helpers return normally: null for a falsy token,
    the decoded value when the pipeline succeeds, and null whenever any step
    throws; additionally a decoded reviewer id is never the falsy zero. -/
theorem token_decoders_total (atobFn utf8Fn : String → Except Unit String)
    (parseFn : String → Except Unit JwtPayload) (token : Option String) :
    (jsFalsy token = true →
      getEmailFromToken atobFn utf8Fn parseFn token = none
      ∧ getCurrentReviewerId atobFn parseFn token = none)
    ∧ (∀ t, token = some t → jsFalsy token = false →
        (emailPipeline atobFn utf8Fn parseFn t = .error () →
          getEmailFromToken atobFn utf8Fn parseFn token = none)
        ∧ (∀ r, emailPipeline atobFn utf8Fn parseFn t = .ok r →
            getEmailFromToken atobFn utf8Fn parseFn token = r)
        ∧ (idPipeline atobFn parseFn t = .error () →
            getCurrentReviewerId atobFn parseFn token = none)
        ∧ (∀ r, idPipeline atobFn parseFn t = .ok r →
            getCurrentReviewerId atobFn parseFn token = r))
    ∧ (∀ n, getCurrentReviewerId atobFn parseFn token = some n → n ≠ 0) := by
  refine ⟨?_, ?_, ?_⟩
  · intro h
    constructor
    · simp [getEmailFromToken, h]
    · simp [getCurrentReviewerId, h]
  · rintro t rfl h
    refine ⟨?_, ?_, ?_, ?_⟩
    · intro hp; simp [getEmailFromToken, h, hp]
    · intro r hp; simp [getEmailFromToken, h, hp]
    · intro hp; simp [getCurrentReviewerId, h, hp]
    · intro r hp; simp [getCurrentReviewerId, h, hp]
  · intro n h
    unfold getCurrentReviewerId at h
    by_cases hf : jsFalsy token = true
    · simp [hf] at h
    · rw [if_neg hf] at h
      cases hp : idPipeline atobFn parseFn (token.getD "") with
      | error e => rw [hp] at h; cases h
      | ok r =>
        rw [hp] at h
        have h2 : r = some n := h
        obtain ⟨p, rfl⟩ := idPipeline_ok_shape atobFn parseFn (token.getD "") r hp
        exact jsOrNull_ne_some_zero p n h2

/-- A concrete atob behavior for witnesses: decode the literal payload segment,
    throw on anything else. -/
def atobSample : String → Except Unit String :=
  fun s => if s = "payload64" then .ok "payloadjson" else .error ()

/-- A concrete percent-decode behavior for witnesses. -/
def utf8Sample : String → Except Unit String :=
  fun s => if s = "payloadjson" then .ok "payloadjson" else .error ()

/-- A concrete JSON.parse behavior for witnesses. -/
def parseSample : String → Except Unit JwtPayload :=
  fun s => if s = "payloadjson" then .ok ⟨some "rev@x.org", some 5⟩ else .error ()

/-- C9 witness: a null token, a malformed token and a well-formed token all
    return normally through the helpers. -/
theorem token_decoders_total_witness :
    getEmailFromToken atobSample utf8Sample parseSample none = none
    ∧ getCurrentReviewerId atobSample parseSample none = none
    ∧ getEmailFromToken atobSample utf8Sample parseSample (some "garbage") = none
    ∧ getCurrentReviewerId atobSample parseSample (some "garbage") = none
    ∧ getEmailFromToken atobSample utf8Sample parseSample
        (some "head.payload64.sig") = some "rev@x.org"
    ∧ getCurrentReviewerId atobSample parseSample (some "head.payload64.sig") = some 5 := by
  have hnull := (token_decoders_total atobSample utf8Sample parseSample none).1 (by decide)
  have hbad := (token_decoders_total atobSample utf8Sample parseSample
    (some "garbage")).2.1 "garbage" rfl (by decide)
  have hgood := (token_decoders_total atobSample utf8Sample parseSample
    (some "head.payload64.sig")).2.1 "head.payload64.sig" rfl (by decide)
  refine ⟨hnull.1, hnull.2, ?_, ?_, ?_, ?_⟩
  · exact hbad.1 (by rfl)
  · exact hbad.2.2.1 (by rfl)
  · exact hgood.2.1 (some "rev@x.org") (by rfl)
  · exact hgood.2.2.2 (some 5) (by rfl)

/-- Identity resolved by IdentityContext, per spec section 4.1. -/
structure Identity where
  userId : Nat
  role : String
  email : String
deriving Repr, DecidableEq

/-- The error taxonomy of spec section 7. -/
inductive ApiError where
  | unauthenticated
  | forbidden (reason : String)
  | notFound
  | invalidInput (reason : String)
deriving Repr, DecidableEq

/-- Modelled from the spec: the backend Document record (section 3) with its
    single nullable assignedReviewerId field; the backend is not under src. -/
structure SpecDocument where
  id : Nat
  ownerId : Nat
  assignedReviewerId : Option Nat
deriving Repr, DecidableEq

/-- Modelled from the spec: the backend Evaluation record (section 3), as the
    current verdict keyed by (documentId, reviewerId). -/
structure SpecEvaluation where
  documentId : Nat
  reviewerId : Nat
  status : String
  comment : String
  createdAt : Nat
deriving Repr, DecidableEq

/-- Modelled from the spec: the stored state the backend operations act on. -/
structure ServerState where
  users : List User
  docs : List SpecDocument
  evals : List SpecEvaluation
deriving Repr, DecidableEq

/-- The per-document update applied by assign: overwrite the assignment of the
    targeted document, leave every other document alone. -/
def setReviewer (documentId reviewerId : Nat) (d : SpecDocument) : SpecDocument :=
  if d.id == documentId then { d with assignedReviewerId := some reviewerId } else d

/-- Modelled from the spec: AssignmentPolicy.assign (section 4.4); the backend
    is not under src. Preconditions in order: admin role else Forbidden, target
    a user with role reviewer else InvalidInput, document exists else NotFound.
    Effect: set assignedReviewerId unconditionally, overwriting any prior
    assignment, and return the updated document. -/
def assign (identity : Identity) (documentId reviewerId : Nat) (s : ServerState) :
    Except ApiError (SpecDocument × ServerState) :=
  if identity.role ≠ "admin" then .error (.forbidden "not an admin")
  else
    match s.users.find? (fun u => u.id == reviewerId) with
    | none => .error (.invalidInput "target is not a reviewer")
    | some u =>
      if u.role ≠ "reviewer" then .error (.invalidInput "target is not a reviewer")
      else
        match s.docs.find? (fun d => d.id == documentId) with
        | none => .error .notFound
        | some d =>
          .ok ({ d with assignedReviewerId := some reviewerId },
            { s with docs := s.docs.map (setReviewer documentId reviewerId) })

/-- Modelled from the spec: EvaluationWorkflow.submit (section 4.3); the backend
    is not under src. Preconditions in order: reviewer role else Forbidden,
    assignment to this reviewer else Forbidden with reason not assigned to this
    document, valid status and non-empty comment else InvalidInput. Effect:
    upsert of the current verdict keyed by (documentId, reviewerId). -/
def submit (identity : Identity) (documentId : Nat) (status comment : String)
    (now : Nat) (s : ServerState) : Except ApiError (SpecEvaluation × ServerState) :=
  if identity.role ≠ "reviewer" then .error (.forbidden "not a reviewer")
  else
    match s.docs.find? (fun d => d.id == documentId) with
    | none => .error .notFound
    | some d =>
      if d.assignedReviewerId ≠ some identity.userId then
        .error (.forbidden "not assigned to this document")
      else if specStatuses.contains status = false ∨ comment = "" then
        .error (.invalidInput "invalid status or empty comment")
      else
        let ev : SpecEvaluation := ⟨documentId, identity.userId, status, comment, now⟩
        .ok (ev, { s with evals :=
          (s.evals.filter (fun e =>
            !(e.documentId == documentId && e.reviewerId == identity.userId))) ++ [ev] })

/-- Helper: looking a document up after the assign update finds the updated
    version of what was found before. -/
theorem find?_docs_map (documentId rid : Nat) (l : List SpecDocument) :
    (l.map (setReviewer documentId rid)).find? (fun d => d.id == documentId)
      = (l.find? (fun d => d.id == documentId)).map (setReviewer documentId rid) := by
  rw [List.find?_map]
  have hpred : ((fun d : SpecDocument => d.id == documentId) ∘ setReviewer documentId rid)
      = (fun d : SpecDocument => d.id == documentId) := by
    funext x
    simp only [Function.comp, setReviewer]
    split <;> rfl
  rw [hpred]

/-- Helper: the assign update is idempotent on a single document. -/
theorem setReviewer_idem (documentId rid : Nat) (x : SpecDocument) :
    setReviewer documentId rid (setReviewer documentId rid x)
      = setReviewer documentId rid x := by
  by_cases h : (x.id == documentId)
  · simp [setReviewer, h]
  · simp [setReviewer, h]

/-- Helper: the assign update is idempotent on the document list. -/
theorem setReviewer_map_idem (documentId rid : Nat) (l : List SpecDocument) :
    (l.map (setReviewer documentId rid)).map (setReviewer documentId rid)
      = l.map (setReviewer documentId rid) := by
  induction l with
  | nil => rfl
  | cons x xs ih => simp only [List.map_cons, setReviewer_idem, ih]

/-- C5: assignment is one nullable field; reassigning r2 over a prior r1 leaves
    assignedReviewerId equal to r2 (replacement, not addition), after which the
    previously assigned reviewer r1 can no longer submit an evaluation for the
    document - the submit fails Forbidden. Backend modelled from the spec. -/
theorem reassignment_replaces_and_blocks_old_reviewer
    (admin rev : Identity) (docId r1 r2 : Nat) (s : ServerState)
    (u1 u2 : User) (d : SpecDocument)
    (hadmin : admin.role = "admin")
    (hrev : rev.role = "reviewer") (hrevId : rev.userId = r1)
    (hu1 : s.users.find? (fun u => u.id == r1) = some u1) (hu1r : u1.role = "reviewer")
    (hu2 : s.users.find? (fun u => u.id == r2) = some u2) (hu2r : u2.role = "reviewer")
    (hd : s.docs.find? (fun x => x.id == docId) = some d)
    (hne : r1 ≠ r2) :
    ∃ s1 s2,
      assign admin docId r1 s
        = .ok ({ d with assignedReviewerId := some r1 }, s1)
      ∧ assign admin docId r2 s1
        = .ok ({ d with assignedReviewerId := some r2 }, s2)
      ∧ s2.docs.find? (fun x => x.id == docId)
        = some { d with assignedReviewerId := some r2 }
      ∧ ∀ status comment now,
          submit rev docId status comment now s2
            = .error (.forbidden "not assigned to this document") := by
  have hpd : (d.id == docId) = true := (find?_split _ _ _ hd).1
  have hfind1 : (s.docs.map (setReviewer docId r1)).find? (fun x => x.id == docId)
      = some { d with assignedReviewerId := some r1 } := by
    rw [find?_docs_map, hd]
    show some (setReviewer docId r1 d) = _
    unfold setReviewer
    rw [if_pos hpd]
  have hfind2 : ((s.docs.map (setReviewer docId r1)).map (setReviewer docId r2)).find?
      (fun x => x.id == docId) = some { d with assignedReviewerId := some r2 } := by
    rw [find?_docs_map, hfind1]
    show some (setReviewer docId r2 { d with assignedReviewerId := some r1 }) = _
    unfold setReviewer
    rw [if_pos hpd]
  have hne2 : ({ d with assignedReviewerId := some r2 } : SpecDocument).assignedReviewerId
      ≠ some rev.userId := by
    show some r2 ≠ some rev.userId
    rw [hrevId]
    intro hEq
    exact hne (Option.some.inj hEq).symm
  refine ⟨{ s with docs := s.docs.map (setReviewer docId r1) },
    { s with docs := (s.docs.map (setReviewer docId r1)).map (setReviewer docId r2) },
    ?_, ?_, ?_, ?_⟩
  · unfold assign
    rw [if_neg (by simp [hadmin])]
    simp only [hu1]
    rw [if_neg (by simp [hu1r])]
    simp only [hd]
  · unfold assign
    rw [if_neg (by simp [hadmin])]
    simp only [hu2]
    rw [if_neg (by simp [hu2r])]
    simp only [hfind1]
  · exact hfind2
  · intro status comment now
    unfold submit
    rw [if_neg (by simp [hrev])]
    simp only [hfind2]
    rw [if_pos hne2]

/-- A concrete backend state: a grantee, two reviewers, an admin, one document. -/
def sampleState : ServerState :=
  ⟨[⟨1, "g@x.org", "grantee"⟩, ⟨2, "r1@x.org", "reviewer"⟩,
    ⟨3, "r2@x.org", "reviewer"⟩, ⟨4, "a@x.org", "admin"⟩],
   [⟨10, 1, none⟩], []⟩

/-- The admin identity of the sample state. -/
def sampleAdmin : Identity := ⟨4, "admin", "a@x.org"⟩

/-- The first reviewer identity of the sample state. -/
def sampleReviewer : Identity := ⟨2, "reviewer", "r1@x.org"⟩

/-- The sample document record. -/
def sampleDocRec : SpecDocument := ⟨10, 1, none⟩

/-- C5 witness: assigning reviewer 2 then reviewer 3 to document 10 leaves the
    assignment at 3 and blocks reviewer 2 from submitting. -/
theorem reassignment_replaces_and_blocks_old_reviewer_witness :
    ∃ s1 s2,
      assign sampleAdmin 10 2 sampleState
        = .ok ({ sampleDocRec with assignedReviewerId := some 2 }, s1)
      ∧ assign sampleAdmin 10 3 s1
        = .ok ({ sampleDocRec with assignedReviewerId := some 3 }, s2)
      ∧ s2.docs.find? (fun x => x.id == 10)
        = some { sampleDocRec with assignedReviewerId := some 3 }
      ∧ ∀ status comment now,
          submit sampleReviewer 10 status comment now s2
            = .error (.forbidden "not assigned to this document") := by
  exact reassignment_replaces_and_blocks_old_reviewer sampleAdmin sampleReviewer 10 2 3
    sampleState ⟨2, "r1@x.org", "reviewer"⟩ ⟨3, "r2@x.org", "reviewer"⟩ sampleDocRec
    rfl rfl rfl rfl rfl rfl rfl rfl (by decide)

/-- C6: assign is idempotent - when a call succeeds, repeating it with identical
    arguments from the resulting state succeeds again with the same returned
    document and the same final state. Backend modelled from the spec. -/
theorem assign_idempotent (i : Identity) (docId rid : Nat) (s : ServerState)
    (d1 : SpecDocument) (s1 : ServerState)
    (h : assign i docId rid s = .ok (d1, s1)) :
    assign i docId rid s1 = .ok (d1, s1) := by
  unfold assign at h ⊢
  by_cases hrole : i.role ≠ "admin"
  · rw [if_pos hrole] at h
    exact Except.noConfusion h
  · rw [if_neg hrole] at h
    rw [if_neg hrole]
    cases hu : s.users.find? (fun u => u.id == rid) with
    | none =>
      simp only [hu] at h
      exact Except.noConfusion h
    | some u =>
      simp only [hu] at h
      by_cases hur : u.role ≠ "reviewer"
      · rw [if_pos hur] at h
        exact Except.noConfusion h
      · rw [if_neg hur] at h
        cases hdd : s.docs.find? (fun x => x.id == docId) with
        | none =>
          simp only [hdd] at h
          exact Except.noConfusion h
        | some d =>
          simp only [hdd] at h
          have hpdd : (d.id == docId) = true := (find?_split _ _ _ hdd).1
          have hsr : setReviewer docId rid d
              = { d with assignedReviewerId := some rid } := by
            unfold setReviewer
            rw [if_pos hpdd]
          have hpair := Except.ok.inj h
          injection hpair with h1 h2
          subst h1
          subst h2
          have hu1 : ({ s with docs := s.docs.map (setReviewer docId rid) } :
              ServerState).users.find? (fun u => u.id == rid) = some u := hu
          simp only [hu1]
          rw [if_neg hur]
          have hfind : ({ s with docs := s.docs.map (setReviewer docId rid) } :
              ServerState).docs.find? (fun x => x.id == docId)
              = some (setReviewer docId rid d) := by
            show (s.docs.map (setReviewer docId rid)).find? (fun x => x.id == docId) = _
            rw [find?_docs_map, hdd]
            rfl
          simp only [hfind]
          rw [hsr]
          simp [setReviewer_map_idem, -List.map_map]

/-- C6 witness: a concrete successful assignment repeated once returns success
    and leaves the state unchanged. -/
theorem assign_idempotent_witness :
    assign sampleAdmin 10 2
        { sampleState with docs := sampleState.docs.map (setReviewer 10 2) }
      = .ok ({ sampleDocRec with assignedReviewerId := some 2 },
          { sampleState with docs := sampleState.docs.map (setReviewer 10 2) }) := by
  exact assign_idempotent sampleAdmin 10 2 sampleState
    { sampleDocRec with assignedReviewerId := some 2 }
    { sampleState with docs := sampleState.docs.map (setReviewer 10 2) } (by rfl)
